import Mathlib

/-!
Verification of the buergerbot appointment-booking script (src/main.py and
src/lib/__init__.py) against its natural-language specification.

The Python code is shallowly embedded: dates are day ordinals (Nat, with the
weekday obtained as the ordinal mod 7, mirroring the Gregorian 7-day cycle
used by strftime), clock times are the exact HH:MM strings the code compares
with Python string ordering, and the portal (calendar pages, time options,
captcha rounds, confirmation-header check) is data supplied to the traversal.
The traversal produces a trace of events so that ordering claims (which day
was evaluated or booked, and when) can be stated about the trace.
-/

namespace Buergerbot

/-! ## Python string ordering

Python compares strings lexicographically by code point, with a proper
initial segment comparing as smaller.  `strLe a b` embeds the expression
`a <= b` used at src/main.py:413.
-/

def charListLe : List Char → List Char → Bool
  | [], _ => true
  | _ :: _, [] => false
  | a :: as, b :: bs =>
    if a < b then true
    else if b < a then false
    else charListLe as bs

def strLe (a b : String) : Bool :=
  charListLe a.data b.data

/-! ## Time windows and slot selection (src/main.py:405-420)

A time option is modelled by the HH:MM string the code derives from the
portal's millisecond timestamp (`time.strftime('%H:%M', ...)` at line 411);
an option whose `value` attribute is missing or empty (falsy) is `none`.
`findWindow` is the inner `for time_slot ...` loop with its break;
`selectSlot` is the outer `for option in options` loop with the `value`
accumulator and its break.
-/

structure TimeWindow where
  fromTime : String
  toTime : String
deriving DecidableEq

def findWindow : List TimeWindow → String → Bool
  | [], _ => false
  | w :: ws, t =>
    if strLe w.fromTime t && strLe t w.toTime then true
    else findWindow ws t

def selectSlot (ws : List TimeWindow) : List (Option String) → Option String
  | [] => none
  | o :: rest =>
    match o with
    | some t => if findWindow ws t then some t else selectSlot ws rest
    | none => selectSlot ws rest

/-! ## Calendar traversal (src/main.py:318-515, function `run`)

The portal is modelled as a list of pagination pages; each page holds the two
month panels (`monthtable0`, `monthtable1`).  A `Day` carries the behaviour
the portal exhibits if that day is booked: its offered time options, the
successive captcha rounds (`some a` = the relay delivered answer `a`, `none`
= the relay timed out), and whether the confirmation page header reads
"Terminvereinbarung" (`headerOk`).  Running out of pages models the
"Vorwärts" button being absent or disabled.
-/

inductive Event where
  | evaluated (d : Nat)
  | noSlot (d : Nat)
  | bookingStarted (d : Nat) (t : String)
  | captchaAnswered (d : Nat) (a : String)
  | captchaTimeout (d : Nat)
  | confirmClicked (d : Nat)
  | bookingSucceeded (d : Nat)
  | bookingFailed (d : Nat)
deriving DecidableEq

inductive DayOutcome where
  | skip
  | stopPanel
  | finished
deriving DecidableEq

structure Day where
  date : Nat
  options : List (Option String)
  captcha : List (Option String)
  headerOk : Bool

structure Config where
  earliest : Option Nat
  latest : Option Nat
  exclude : List Nat
  windows : Nat → List TimeWindow
  disableBooking : Bool

/-- src/main.py:376 — `config.earliest_date and parsed_date < config.earliest_date`. -/
def beforeEarliest (cfg : Config) (d : Nat) : Bool :=
  match cfg.earliest with
  | some e => decide (d < e)
  | none => false

/-- src/main.py:379 — `config.latest_date and parsed_date > config.latest_date`. -/
def afterLatest (cfg : Config) (d : Nat) : Bool :=
  match cfg.latest with
  | some l => decide (l < d)
  | none => false

/-- src/main.py:443-464 — the `while page.query_selector("#cssconstants_captcha_image")`
loop: each round captures the challenge and waits on the relay; a falsy
answer (`if not captcha_answer: break`) ends the loop, returning `true` for
"timed out"; otherwise the answer is filled in, "Weiter" is clicked, and the
loop re-checks whether the portal re-presents a challenge. -/
def captchaRun (d : Nat) : List (Option String) → List Event × Bool
  | [] => ([], false)
  | none :: _ => ([.captchaTimeout d], true)
  | some a :: rest =>
    let r := captchaRun d rest
    (.captchaAnswered d a :: r.1, r.2)

/-- src/main.py:398-489 — the submission steps once a slot `t` was selected
for the day: click the day, select the time, fill personal data, run the
captcha loop, click `action_confirm_next` (line 467) and check the page
header (line 470); `success` is set either way. -/
def bookingBlock (day : Day) (t : String) : List Event :=
  [.evaluated day.date, .bookingStarted day.date t]
    ++ (captchaRun day.date day.captcha).1
    ++ [.confirmClicked day.date,
        if day.headerOk then .bookingSucceeded day.date else .bookingFailed day.date]

/-- src/main.py:376-396 — the filters applied to a free day before any
booking, in source order: earliest (`continue`), latest (`break`),
exclusion (`break`), `--disable-booking` (`continue`).  `none` means the
day passed all filters. -/
def dayFilter (cfg : Config) (d : Nat) : Option DayOutcome :=
  if beforeEarliest cfg d then some .skip
  else if afterLatest cfg d then some .stopPanel
  else if cfg.exclude.contains d then some .stopPanel
  else if cfg.disableBooking then some .skip
  else none

/-- src/main.py:368-489 — the body of `for free_day in free_days`: apply the
filters; if the day survives, select a slot (no slot logs an error and
continues, line 418-420); otherwise perform the booking, after which the
day loop is left with `success = True` regardless of the header check. -/
def evalDay (cfg : Config) (day : Day) : List Event × DayOutcome :=
  match dayFilter cfg day.date with
  | some oc => ([.evaluated day.date], oc)
  | none =>
    match selectSlot (cfg.windows (day.date % 7)) day.options with
    | none => ([.evaluated day.date, .noSlot day.date], .skip)
    | some t => (bookingBlock day t, .finished)

/-- src/main.py:368-489 — the `for free_day in free_days` loop over one month
panel.  `.skip` is `continue`, `.stopPanel` is `break` without success,
`.finished` is `break` with `success = True`. -/
def scanPanel (cfg : Config) : List Day → List Event × Bool
  | [] => ([], false)
  | day :: rest =>
    let r := evalDay cfg day
    match r.2 with
    | .skip =>
      let rr := scanPanel cfg rest
      (r.1 ++ rr.1, rr.2)
    | .stopPanel => (r.1, false)
    | .finished => (r.1, true)

/-- src/main.py:357-492 — the `for table_name in ["monthtable0", "monthtable1"]`
loop: the second panel is scanned only when the first did not set success. -/
def scanPage (cfg : Config) (pg : List Day × List Day) : List Event × Bool :=
  let r1 := scanPanel cfg pg.1
  if r1.2 then r1
  else
    let r2 := scanPanel cfg pg.2
    (r1.1 ++ r2.1, r2.2)

/-- src/main.py:355-505 — the `while not success` pagination loop of `run`:
scan the two visible panels; if success was not set, click "Vorwärts" when
it exists and is enabled (modelled by a further page in the list) and loop,
otherwise stop with `success = False`.  Each invocation is a fresh,
stateless scan of the supplied pages (the function has no persistent
state). -/
def run (cfg : Config) : List (List Day × List Day) → List Event × Bool
  | [] => ([], false)
  | pg :: rest =>
    let r := scanPage cfg pg
    if r.2 then r
    else
      let rr := run cfg rest
      (r.1 ++ rr.1, rr.2)

/-! ### Trace predicates used by the claims -/

def isEval : Event → Bool
  | .evaluated _ => true
  | _ => false

def isBook : Event → Bool
  | .bookingStarted _ _ => true
  | _ => false

def isVerif : Event → Bool
  | .captchaAnswered _ _ => true
  | .captchaTimeout _ => true
  | _ => false

def isTimeoutEv : Event → Bool
  | .captchaTimeout _ => true
  | _ => false

def isConfirm : Event → Bool
  | .confirmClicked _ => true
  | _ => false

/-- Events that occur only on a day that was filtered out or had no eligible
slot — i.e. events of a scan that did not reach the booking steps. -/
def plainEvent : Event → Bool
  | .evaluated _ => true
  | .noSlot _ => true
  | _ => false

/-- `afterFirst trig ok tr = true` iff every event after the first
`trig`-event of `tr` satisfies `ok`. -/
def afterFirst (trig ok : Event → Bool) : List Event → Bool
  | [] => true
  | e :: rest => if trig e then rest.all ok else afterFirst trig ok rest

def countBookings (tr : List Event) : Nat :=
  (tr.filter isBook).length

/-- The conditions under which `run` reaches the booking steps for `day`
with selected slot `t`: every filter of src/main.py:376-396 passed and the
slot selection of lines 405-417 returned `t`. -/
def bookable (cfg : Config) (day : Day) (t : String) : Prop :=
  beforeEarliest cfg day.date = false ∧
  afterLatest cfg day.date = false ∧
  cfg.exclude.contains day.date = false ∧
  cfg.disableBooking = false ∧
  selectSlot (cfg.windows (day.date % 7)) day.options = some t

/-- Structural invariant of every (partial) traversal result: either no
booking was reached (`success = False` and only filter-level events were
emitted), or the trace is a booking-free scan followed by exactly one
booking block for a day that passed all filters, with `success = True`. -/
def TraceShape (cfg : Config) (res : List Event × Bool) : Prop :=
  (res.2 = false ∧ ∀ e ∈ res.1, plainEvent e = true) ∨
  (res.2 = true ∧ ∃ pre day t,
    res.1 = pre ++ bookingBlock day t ∧
    (∀ e ∈ pre, plainEvent e = true) ∧
    bookable cfg day t)

/-! ## Human-verification relay (src/lib/__init__.py:79-126,
`telegram_send_photo`)

The waiting loop `while captcha_answer is None and time.time() - start_time
< (4 * 60 + 30): await asyncio.sleep(0.5)` is modelled in discrete half-second
ticks: `answerAt k` is the state of `captcha_answer` when the loop condition
is checked for the k-th time (the operator's reply handler sets it
asynchronously; once the loop observes `some`, the reply text is returned).
The elapsed wall-clock time at check `k` is `0.5 * k` seconds, so the
4-minute-30-second timeout corresponds to `timeoutTicks = 540` ticks.
-/

def timeoutTicks : Nat := 2 * (4 * 60 + 30)

/-- The wait loop, at tick `k` with `remaining` ticks left before the
timeout expires (the loop condition `time.time() - start_time < 270` holds
iff `remaining > 0`; the top-level call starts with
`remaining = timeoutTicks`). -/
def pollFrom (answerAt : Nat → Option String) (k : Nat) : Nat → Option String × Nat
  | 0 =>
    (match answerAt k with
     | some a => (some a, k)
     | none => (none, k))
  | remaining + 1 =>
    match answerAt k with
    | some a => (some a, k)
    | none => pollFrom answerAt (k + 1) remaining

def poll (answerAt : Nat → Option String) : Option String × Nat :=
  pollFrom answerAt 0 timeoutTicks

/-- src/lib/__init__.py:79-126 — when Telegram is disabled the function
returns immediately with no answer (the bare `return` at line 87); otherwise
it sends the photo, installs the reply handler and enters the wait loop.
The result pairs the returned answer with the tick at which the wait
ended. -/
def telegram_send_photo (enabled : Bool) (answerAt : Nat → Option String) :
    Option String × Nat :=
  if enabled then poll answerAt else (none, 0)

/-! ## Retry/polling supervisor (src/main.py:647-659)

`runResults i` is the boolean returned by the i-th invocation of `run`
(`tries` equals the number of previous invocations when `run` is called, so
invocation `i` happens at `tries = i`).  The loop
`while not run(args, config) and (args.tries == 0 or tries < args.tries)`
is embedded with explicit fuel; `none` models non-termination (only possible
with `maxTries = 0`, the "unlimited" setting, and unbounded failures).  The
result is the total number of `run` invocations paired with the final
success flag.  Between failed attempts the code sleeps
`config.minutes * 60 + config.seconds` seconds and logs the attempt number.
-/

def superLoop (runResults : Nat → Bool) (maxTries : Nat) : Nat → Nat → Option (Nat × Bool)
  | _, 0 => none
  | tries, fuel + 1 =>
    if runResults tries then some (tries + 1, true)
    else if maxTries == 0 || decide (tries < maxTries) then
      superLoop runResults maxTries (tries + 1) fuel
    else some (tries + 1, false)

/-- src/main.py:647-659 — periodic mode runs the retry loop starting at
`tries = 0`; non-periodic mode performs exactly one invocation and stops
regardless of its outcome. -/
def supervisor (periodic : Bool) (maxTries : Nat) (runResults : Nat → Bool)
    (fuel : Nat) : Option (Nat × Bool) :=
  if periodic then superLoop runResults maxTries 0 fuel
  else some (1, runResults 0)

/-! ## Configuration-file schema and weekday ingestion
(src/lib/__init__.py:129-247 and src/main.py:267-272)

YAML values are modelled by `YVal`; dictionaries are association lists.
`validateWeekdays` embeds cerberus validation and normalisation of the
`weekdays` section of `config_schema`: keys must be among
monday..saturday (cerberus rejects unknown fields), each value must be a
list of `{from, to}` dicts whose entries match `TIME_FORMAT_REGEX`, and
normalisation fills every missing weekday with its schema default `[]`.
`parse_config_weekdays` embeds the weekday loop of
`Configuration.parse_config` (src/main.py:267-272), which reads
`config["weekdays"]["available"]` and `config["weekdays"]["unavailable"]`;
a missing key is a Python `KeyError`, modelled as `none`.
-/

inductive YVal where
  | s (v : String)
  | list (l : List YVal)
  | dict (entries : List (String × YVal))

def lookupY : List (String × YVal) → String → Option YVal
  | [], _ => none
  | (k, v) :: rest, key => if k = key then some v else lookupY rest key

def weekdayKeys : List String :=
  ["monday", "tuesday", "wednesday", "thursday", "friday", "saturday"]

/-- src/lib/__init__.py:130 — `TIME_FORMAT_REGEX = "^[0-2][0-9]:[0-5][0-9]$"`. -/
def timeFormatOk (str : String) : Bool :=
  match str.data with
  | [h1, h2, c, m1, m2] =>
    (decide ('0' ≤ h1) && decide (h1 ≤ '2')) && h2.isDigit
      && (c == ':')
      && (decide ('0' ≤ m1) && decide (m1 ≤ '5')) && m2.isDigit
  | _ => false

/-- The per-window dict schema: required string fields `from` and `to`, both
matching the time regex, and no unknown fields. -/
def windowEntryOk : YVal → Bool
  | .dict entries =>
    entries.all (fun kv => kv.1 == "from" || kv.1 == "to")
      && (match lookupY entries "from" with
          | some (.s v) => timeFormatOk v
          | _ => false)
      && (match lookupY entries "to" with
          | some (.s v) => timeFormatOk v
          | _ => false)
  | _ => false

def windowListVal : YVal → Bool
  | .list l => l.all windowEntryOk
  | _ => false

/-- Cerberus validation + normalisation of the `weekdays` section of
`config_schema` (src/lib/__init__.py:160-230): every key must be one of the
six weekday keys with a valid window list; the normalised document contains
all six keys, missing ones filled with the default `[]`. -/
def validateWeekdays (v : YVal) : Option YVal :=
  match v with
  | .dict entries =>
    if entries.all (fun kv => weekdayKeys.contains kv.1 && windowListVal kv.2) then
      some (.dict (weekdayKeys.map (fun k => (k, (lookupY entries k).getD (.list [])))))
    else none
  | _ => none

def decodeWindow (v : YVal) : Option TimeWindow :=
  match v with
  | .dict entries =>
    match lookupY entries "from", lookupY entries "to" with
    | some (.s f), some (.s t) => some ⟨f, t⟩
    | _, _ => none
  | _ => none

def decodeWindows (v : YVal) : Option (List TimeWindow) :=
  match v with
  | .list l => l.mapM decodeWindow
  | _ => none

def unavailNames (v : YVal) : Option (List String) :=
  match v with
  | .list l => l.mapM (fun x => match x with | YVal.s str => some str | _ => none)
  | _ => none

/-- src/main.py:267-272 — the weekday-ingestion loop of
`Configuration.parse_config`:

    for weekday, times in config["weekdays"]["available"].items():
        if not times and weekday not in config["weekdays"]["unavailable"]:
            self.weekdays[weekday] = ["00:00".."23:59"]
        else:
            self.weekdays[weekday] = times

A missing `available` or `unavailable` key raises `KeyError`, modelled as
`none`. -/
def parse_config_weekdays (v : YVal) : Option (List (String × List TimeWindow)) :=
  match v with
  | .dict entries =>
    match lookupY entries "available", lookupY entries "unavailable" with
    | some (.dict avail), some unav =>
      match unavailNames unav with
      | some names =>
        avail.mapM (fun kv =>
          match decodeWindows kv.2 with
          | some ws =>
            some (kv.1,
              if ws.isEmpty && !(names.contains kv.1) then
                [⟨"00:00", "23:59"⟩]
              else ws)
          | none => none)
      | none => none
    | _, _ => none
  | _ => none

/-- The schema constraint `config_schema` imposes on one time window
(src/lib/__init__.py:160-230): each of the two fields independently matches
`TIME_FORMAT_REGEX`; no relation between them is checked. -/
def windowSchemaOk (w : TimeWindow) : Bool :=
  timeFormatOk w.fromTime && timeFormatOk w.toTime

/-! ## Date bounds of the Configuration (src/main.py:76-96 and 274-281)

`ArgsModel` carries the two parsed CLI date arguments.  `Configuration.__init__`
sets (src/main.py:80-81):

    self.earliest_date = args.earliest_date
    self.latest_date = args.earliest_date

`args.latest_date` is parsed by argparse (src/main.py:631-636) but never
read.  `configDates` returns the `(earliest_date, latest_date, exclude_dates)`
triple after `__init__` and, when a config file with a `dates` section is
used, after the overrides of `parse_config` (src/main.py:274-281).
-/

structure ArgsModel where
  earliest_date : Option Nat
  latest_date : Option Nat

structure DatesSection where
  earliest : Option Nat
  latest : Option Nat
  exclude : List Nat

def configDates (a : ArgsModel) (file : Option DatesSection) :
    Option Nat × Option Nat × List Nat :=
  let initEarliest := a.earliest_date
  let initLatest := a.earliest_date
  match file with
  | none => (initEarliest, initLatest, [])
  | some ds =>
    ((match ds.earliest with | some e => some e | none => initEarliest),
     (match ds.latest with | some l => some l | none => initLatest),
     ds.exclude)

/-! ## Concrete inputs used by witnesses and counterexamples -/

def fullDayWindow : TimeWindow := ⟨"00:00", "23:59"⟩

def cfgLatest5 : Config := ⟨none, some 5, [], fun _ => [], false⟩

def pagesLatest : List (List Day × List Day) :=
  [([⟨10, [], [], true⟩], [⟨11, [], [], true⟩])]

def cfgExclude5 : Config := ⟨none, none, [5], fun _ => [fullDayWindow], false⟩

def pagesExclude : List (List Day × List Day) :=
  [([⟨5, [some "10:00"], [], true⟩, ⟨6, [some "10:00"], [], true⟩], [])]

def cfgOpen : Config := ⟨none, none, [], fun _ => [fullDayWindow], false⟩

def pagesTimeout : List (List Day × List Day) :=
  [([⟨5, [some "10:00"], [none], false⟩], [])]

def pagesBook : List (List Day × List Day) :=
  [([⟨8, [some "10:00"], [], true⟩], [])]

def cfgBounded : Config := ⟨some 3, some 20, [4], fun _ => [fullDayWindow], false⟩

def cfgScenA : Config := ⟨none, none, [], fun _ => [⟨"09:00", "12:00"⟩], false⟩

def dayScenA : Day := ⟨8, [some "08:00"], [], true⟩

def weekdaysDoc : YVal :=
  .dict [("monday", .list [.dict [("from", .s "09:00"), ("to", .s "12:00")]])]

def weekdaysNormalized : YVal :=
  .dict [("monday", .list [.dict [("from", .s "09:00"), ("to", .s "12:00")]]),
         ("tuesday", .list []),
         ("wednesday", .list []),
         ("thursday", .list []),
         ("friday", .list []),
         ("saturday", .list [])]

def answeredAt12 : Nat → Option String :=
  fun k => if k = 12 then some "7F3Q" else none

/-! ## Lemmas: string ordering -/

theorem charListLe_trans : ∀ a b c : List Char,
    charListLe a b = true → charListLe b c = true → charListLe a c = true
  | [], _, _, _, _ => rfl
  | _ :: _, [], _, hab, _ => by simp [charListLe] at hab
  | _ :: _, _ :: _, [], _, hbc => by simp [charListLe] at hbc
  | x :: xs, y :: ys, z :: zs, hab, hbc => by
    simp only [charListLe] at hab hbc ⊢
    by_cases hxy : x < y
    · by_cases hyz : y < z
      · rw [if_pos (lt_trans hxy hyz)]
      · by_cases hzy : z < y
        · rw [if_neg hyz, if_pos hzy] at hbc
          exact absurd hbc (by simp)
        · have h : y = z := le_antisymm (not_lt.mp hzy) (not_lt.mp hyz)
          rw [if_pos (h ▸ hxy)]
    · by_cases hyx : y < x
      · rw [if_neg hxy, if_pos hyx] at hab
        exact absurd hab (by simp)
      · have hxyeq : x = y := le_antisymm (not_lt.mp hyx) (not_lt.mp hxy)
        rw [if_neg hxy, if_neg hyx] at hab
        by_cases hyz : y < z
        · rw [if_pos (hxyeq ▸ hyz)]
        · by_cases hzy : z < y
          · rw [if_neg hyz, if_pos hzy] at hbc
            exact absurd hbc (by simp)
          · have hyzeq : y = z := le_antisymm (not_lt.mp hzy) (not_lt.mp hyz)
            rw [if_neg hyz, if_neg hzy] at hbc
            have hxz : ¬ x < z := by rw [hxyeq, hyzeq]; exact lt_irrefl z
            have hzx : ¬ z < x := by rw [hxyeq, hyzeq]; exact lt_irrefl z
            rw [if_neg hxz, if_neg hzx]
            exact charListLe_trans xs ys zs hab hbc

theorem strLe_trans {a b c : String} (hab : strLe a b = true) (hbc : strLe b c = true) :
    strLe a c = true :=
  charListLe_trans a.data b.data c.data hab hbc

/-! ## Lemmas: slot selection -/

theorem findWindow_iff (ws : List TimeWindow) (t : String) :
    findWindow ws t = true ↔
      ∃ w, w ∈ ws ∧ strLe w.fromTime t = true ∧ strLe t w.toTime = true := by
  induction ws with
  | nil => simp [findWindow]
  | cons w ws ih =>
    simp only [findWindow]
    by_cases h : strLe w.fromTime t && strLe t w.toTime
    · simp only [if_pos h, true_iff]
      exact ⟨w, List.mem_cons_self w ws, by simpa [Bool.and_eq_true] using h⟩
    · simp only [if_neg h, ih]
      constructor
      · rintro ⟨w', hw', hcond⟩
        exact ⟨w', List.mem_cons_of_mem _ hw', hcond⟩
      · rintro ⟨w', hw', hcond⟩
        rcases List.mem_cons.mp hw' with rfl | hw'
        · exact absurd (by simp [Bool.and_eq_true, hcond.1, hcond.2]) h
        · exact ⟨w', hw', hcond⟩

theorem findWindow_eq_any (ws : List TimeWindow) (t : String) :
    findWindow ws t = ws.any (fun w => strLe w.fromTime t && strLe t w.toTime) := by
  induction ws with
  | nil => simp [findWindow]
  | cons w ws ih =>
    simp only [findWindow, List.any_cons]
    by_cases h : strLe w.fromTime t && strLe t w.toTime
    · simp [h]
    · simp only [if_neg h, ih]
      simp [Bool.eq_false_iff.mpr h]

theorem selectSlot_eq_findSome (ws : List TimeWindow) (options : List (Option String)) :
    selectSlot ws options = options.findSome? (fun o =>
      match o with
      | some t =>
        if ws.any (fun w => strLe w.fromTime t && strLe t w.toTime) then some t else none
      | none => none) := by
  induction options with
  | nil => simp [selectSlot]
  | cons o rest ih =>
    cases o with
    | none => simpa [selectSlot, List.findSome?] using ih
    | some t =>
      simp only [selectSlot, List.findSome?_cons]
      rw [← findWindow_eq_any]
      by_cases h : findWindow ws t = true
      · rw [if_pos h, if_pos h]
      · rw [if_neg h, if_neg h]
        exact ih

/-! ## Lemmas: day filters -/

theorem dayFilter_ne_finished (cfg : Config) (d : Nat) :
    dayFilter cfg d ≠ some .finished := by
  unfold dayFilter
  split
  · simp
  · split
    · simp
    · split
      · simp
      · split <;> simp

theorem dayFilter_eq_none_iff (cfg : Config) (d : Nat) :
    dayFilter cfg d = none ↔
      beforeEarliest cfg d = false ∧ afterLatest cfg d = false ∧
      cfg.exclude.contains d = false ∧ cfg.disableBooking = false := by
  unfold dayFilter
  cases h1 : beforeEarliest cfg d <;>
    cases h2 : afterLatest cfg d <;>
      cases h3 : cfg.exclude.contains d <;>
        cases h4 : cfg.disableBooking <;> simp

/-! ## Lemmas: captcha loop events -/

theorem captchaRun_mem (d : Nat) :
    ∀ (rounds : List (Option String)) (e : Event), e ∈ (captchaRun d rounds).1 →
      e = .captchaTimeout d ∨ ∃ a, e = .captchaAnswered d a
  | [], e, he => by simp [captchaRun] at he
  | none :: rest, e, he => by
    simp only [captchaRun, List.mem_singleton] at he
    exact Or.inl he
  | some a :: rest, e, he => by
    simp only [captchaRun, List.mem_cons] at he
    rcases he with rfl | he
    · exact Or.inr ⟨a, rfl⟩
    · exact captchaRun_mem d rest e he

theorem captchaRun_verif {d : Nat} {rounds : List (Option String)} {e : Event}
    (he : e ∈ (captchaRun d rounds).1) : isVerif e = true := by
  rcases captchaRun_mem d rounds e he with rfl | ⟨a, rfl⟩ <;> rfl

/-! ## Lemmas: `afterFirst` -/

theorem afterFirst_of_all_neg {trig ok : Event → Bool} :
    ∀ {tr : List Event}, (∀ e ∈ tr, trig e = false) → afterFirst trig ok tr = true
  | [], _ => rfl
  | e :: rest, h => by
    have he : trig e = false := h e (List.mem_cons_self e rest)
    simp only [afterFirst, he, Bool.false_eq_true, if_false]
    exact afterFirst_of_all_neg (fun e' he' => h e' (List.mem_cons_of_mem _ he'))

theorem afterFirst_append_of_all_neg {trig ok : Event → Bool} :
    ∀ {tr1 tr2 : List Event}, (∀ e ∈ tr1, trig e = false) →
      afterFirst trig ok (tr1 ++ tr2) = afterFirst trig ok tr2
  | [], _, _ => rfl
  | e :: rest, tr2, h => by
    have he : trig e = false := h e (List.mem_cons_self e rest)
    simp only [List.cons_append, afterFirst, he, Bool.false_eq_true, if_false]
    exact afterFirst_append_of_all_neg (fun e' he' => h e' (List.mem_cons_of_mem _ he'))

/-! ## Lemmas: event counting -/

theorem countBookings_append (tr1 tr2 : List Event) :
    countBookings (tr1 ++ tr2) = countBookings tr1 + countBookings tr2 := by
  simp [countBookings, List.filter_append]

theorem countBookings_of_all_not_book {tr : List Event}
    (h : ∀ e ∈ tr, isBook e = false) : countBookings tr = 0 := by
  simp only [countBookings, List.length_eq_zero]
  exact List.filter_eq_nil_iff.mpr (fun e he => by simp [h e he])

theorem plainEvent_not_book {e : Event} (h : plainEvent e = true) : isBook e = false := by
  cases e <;> simp_all [plainEvent, isBook]

theorem plainEvent_not_verif {e : Event} (h : plainEvent e = true) : isVerif e = false := by
  cases e <;> simp_all [plainEvent, isVerif]

theorem plainEvent_not_timeout {e : Event} (h : plainEvent e = true) : isTimeoutEv e = false := by
  cases e <;> simp_all [plainEvent, isTimeoutEv]

theorem verif_not_book {e : Event} (h : isVerif e = true) : isBook e = false := by
  cases e <;> simp_all [isVerif, isBook]

theorem verif_not_eval {e : Event} (h : isVerif e = true) : isEval e = false := by
  cases e <;> simp_all [isVerif, isEval]

theorem countBookings_captchaRun (d : Nat) (rounds : List (Option String)) :
    countBookings (captchaRun d rounds).1 = 0 :=
  countBookings_of_all_not_book (fun _e he => verif_not_book (captchaRun_verif he))

theorem countBookings_bookingBlock (day : Day) (t : String) :
    countBookings (bookingBlock day t) = 1 := by
  unfold bookingBlock
  rw [countBookings_append, countBookings_append, countBookings_captchaRun]
  cases hh : day.headerOk <;>
    simp [countBookings, List.filter, isBook, hh]

theorem captchaRun_afterFirst_timeout (d : Nat) :
    ∀ (rounds : List (Option String)) (tail : List Event),
      (∀ e ∈ tail, isVerif e = false) →
      afterFirst isTimeoutEv (fun e => !(isVerif e)) ((captchaRun d rounds).1 ++ tail) = true
  | [], tail, h => by
    simp only [captchaRun, List.nil_append]
    exact afterFirst_of_all_neg (fun e he => by
      have hv := h e he
      cases e <;> simp_all [isVerif, isTimeoutEv])
  | none :: rest, tail, h => by
    simp only [captchaRun, List.cons_append, List.nil_append, afterFirst, isTimeoutEv,
      if_true]
    exact List.all_eq_true.mpr (fun e he => by simp [h e he])
  | some a :: rest, tail, h => by
    simp only [captchaRun, List.cons_append, afterFirst, isTimeoutEv, Bool.false_eq_true,
      if_false]
    exact captchaRun_afterFirst_timeout d rest tail h

/-! ## Lemmas: traversal trace structure -/

theorem evalDay_shape (cfg : Config) (day : Day) :
    ((evalDay cfg day).2 ≠ .finished ∧ ∀ e ∈ (evalDay cfg day).1, plainEvent e = true) ∨
    ((evalDay cfg day).2 = .finished ∧ ∃ t,
      (evalDay cfg day).1 = bookingBlock day t ∧ bookable cfg day t) := by
  unfold evalDay
  cases hf : dayFilter cfg day.date with
  | some oc =>
    left
    refine ⟨fun h => dayFilter_ne_finished cfg day.date (h ▸ hf), ?_⟩
    intro e he
    simp only [List.mem_singleton] at he
    simp [he, plainEvent]
  | none =>
    cases hs : selectSlot (cfg.windows (day.date % 7)) day.options with
    | none =>
      left
      refine ⟨by simp, ?_⟩
      intro e he
      rcases List.mem_cons.mp he with rfl | he
      · rfl
      · simp only [List.mem_singleton] at he
        simp [he, plainEvent]
    | some t =>
      right
      refine ⟨rfl, t, rfl, ?_⟩
      have h := (dayFilter_eq_none_iff cfg day.date).mp hf
      exact ⟨h.1, h.2.1, h.2.2.1, h.2.2.2, hs⟩

theorem traceShape_append {cfg : Config} {pre : List Event}
    (hpre : ∀ e ∈ pre, plainEvent e = true) {res : List Event × Bool}
    (h : TraceShape cfg res) : TraceShape cfg (pre ++ res.1, res.2) := by
  rcases h with ⟨hf, hp⟩ | ⟨ht, p, day, t, heq, hp, hb⟩
  · left
    refine ⟨hf, fun e he => ?_⟩
    rcases List.mem_append.mp he with he | he
    · exact hpre e he
    · exact hp e he
  · right
    refine ⟨ht, pre ++ p, day, t, ?_, fun e he => ?_, hb⟩
    · rw [heq, List.append_assoc]
    · rcases List.mem_append.mp he with he | he
      · exact hpre e he
      · exact hp e he

theorem scanPanel_shape (cfg : Config) :
    ∀ days : List Day, TraceShape cfg (scanPanel cfg days)
  | [] => Or.inl ⟨rfl, by intro e he; simp [scanPanel] at he⟩
  | day :: rest => by
    rcases evalDay_shape cfg day with ⟨hne, hplain⟩ | ⟨hfin, t, heq, hb⟩
    · cases h2 : (evalDay cfg day).2 with
      | skip =>
        have : scanPanel cfg (day :: rest) =
            ((evalDay cfg day).1 ++ (scanPanel cfg rest).1, (scanPanel cfg rest).2) := by
          simp [scanPanel, h2]
        rw [this]
        exact traceShape_append hplain (scanPanel_shape cfg rest)
      | stopPanel =>
        have : scanPanel cfg (day :: rest) = ((evalDay cfg day).1, false) := by
          simp [scanPanel, h2]
        rw [this]
        exact Or.inl ⟨rfl, hplain⟩
      | finished => exact absurd h2 hne
    · have : scanPanel cfg (day :: rest) = ((evalDay cfg day).1, true) := by
        simp [scanPanel, hfin]
      rw [this]
      exact Or.inr ⟨rfl, [], day, t, by simpa using heq, by simp, hb⟩

theorem scanPage_shape (cfg : Config) (pg : List Day × List Day) :
    TraceShape cfg (scanPage cfg pg) := by
  cases h1 : (scanPanel cfg pg.1).2 with
  | true =>
    have h : scanPage cfg pg = scanPanel cfg pg.1 := by
      simp [scanPage, h1]
    rw [h]
    exact scanPanel_shape cfg pg.1
  | false =>
    have h : scanPage cfg pg =
        ((scanPanel cfg pg.1).1 ++ (scanPanel cfg pg.2).1, (scanPanel cfg pg.2).2) := by
      simp [scanPage, h1]
    rw [h]
    rcases scanPanel_shape cfg pg.1 with ⟨_, hplain⟩ | ⟨ht, _⟩
    · exact traceShape_append hplain (scanPanel_shape cfg pg.2)
    · exact absurd (h1 ▸ ht) (by simp)

theorem run_shape (cfg : Config) :
    ∀ pages : List (List Day × List Day), TraceShape cfg (run cfg pages)
  | [] => Or.inl ⟨rfl, by intro e he; simp [run] at he⟩
  | pg :: rest => by
    cases h1 : (scanPage cfg pg).2 with
    | true =>
      have : run cfg (pg :: rest) = scanPage cfg pg := by
        simp [run, h1]
      rw [this]
      exact scanPage_shape cfg pg
    | false =>
      have : run cfg (pg :: rest) =
          ((scanPage cfg pg).1 ++ (run cfg rest).1, (run cfg rest).2) := by
        simp [run, h1]
      rw [this]
      rcases scanPage_shape cfg pg with ⟨_, hplain⟩ | ⟨ht, _⟩
      · exact traceShape_append hplain (run_shape cfg rest)
      · exact absurd (h1 ▸ ht) (by simp)

/-! ## Lemmas: membership in a booking block -/

theorem bookingBlock_book_mem {day : Day} {t : String} {d : Nat} {t' : String}
    (h : Event.bookingStarted d t' ∈ bookingBlock day t) : d = day.date ∧ t' = t := by
  unfold bookingBlock at h
  rcases List.mem_append.mp h with h | h
  · rcases List.mem_append.mp h with h | h
    · rcases List.mem_cons.mp h with h | h
      · exact absurd h (by simp)
      · simp only [List.mem_singleton] at h
        injection h with h1 h2
        exact ⟨h1, h2⟩
    · exact absurd (captchaRun_verif h) (by simp [isVerif])
  · rcases List.mem_cons.mp h with h | h
    · exact absurd h (by simp)
    · simp only [List.mem_singleton] at h
      cases hh : day.headerOk <;> rw [hh] at h <;> exact absurd h (by simp)

theorem bookingBlock_timeout_mem {day : Day} {t : String} {d : Nat}
    (h : Event.captchaTimeout d ∈ bookingBlock day t) : d = day.date := by
  unfold bookingBlock at h
  rcases List.mem_append.mp h with h | h
  · rcases List.mem_append.mp h with h | h
    · rcases List.mem_cons.mp h with h | h
      · exact absurd h (by simp)
      · simp only [List.mem_singleton] at h
        exact absurd h (by simp)
    · rcases captchaRun_mem day.date day.captcha _ h with h | ⟨a, h⟩
      · injection h
      · injection h
  · rcases List.mem_cons.mp h with h | h
    · exact absurd h (by simp)
    · simp only [List.mem_singleton] at h
      cases hh : day.headerOk <;> rw [hh] at h <;> exact absurd h (by simp)

theorem bookingBlock_confirm_mem (day : Day) (t : String) :
    Event.confirmClicked day.date ∈ bookingBlock day t := by
  unfold bookingBlock
  refine List.mem_append.mpr (Or.inr ?_)
  exact List.mem_cons_self _ _

/-! ## Claim theorems -/

/-- C1: Slot selection scans the day's offered time options in portal order
and selects the first option whose HH:MM clock time lies within some
configured window for that day's weekday, with inclusive bounds: a candidate
time t is matched iff from ≤ t ≤ to for some window (conjuncts 1 and 2,
where `List.findSome?` is exactly "the first option in order for which the
predicate produces a value"); if no option matches, the day is reported as
having no eligible slot and scanning continues with the next candidate day
of the panel (conjuncts 3 and 4). -/
theorem c1_slot_selection :
    (∀ (ws : List TimeWindow) (t : String),
      findWindow ws t = true ↔
        ∃ w, w ∈ ws ∧ strLe w.fromTime t = true ∧ strLe t w.toTime = true) ∧
    (∀ (ws : List TimeWindow) (options : List (Option String)),
      selectSlot ws options = options.findSome? (fun o =>
        match o with
        | some t =>
          if ws.any (fun w => strLe w.fromTime t && strLe t w.toTime) then some t else none
        | none => none)) ∧
    (∀ (cfg : Config) (day : Day),
      dayFilter cfg day.date = none →
      selectSlot (cfg.windows (day.date % 7)) day.options = none →
      evalDay cfg day = ([.evaluated day.date, .noSlot day.date], .skip)) ∧
    (∀ (cfg : Config) (day : Day) (rest : List Day),
      (evalDay cfg day).2 = .skip →
      scanPanel cfg (day :: rest) =
        ((evalDay cfg day).1 ++ (scanPanel cfg rest).1, (scanPanel cfg rest).2)) := by
  refine ⟨findWindow_iff, selectSlot_eq_findSome, ?_, ?_⟩
  · intro cfg day hf hs
    simp [evalDay, hf, hs]
  · intro cfg day rest h2
    simp [scanPanel, h2]

/-- C1 witness: scenario A of the spec — windows 09:00-12:00, options at
08:30 and 10:15; selection picks 10:15, and a day whose options never match
is skipped with a `noSlot` report while the panel scan continues. -/
theorem c1_slot_selection_witness :
    (findWindow [⟨"09:00", "12:00"⟩] "10:15" = true ↔
      ∃ w, w ∈ [(⟨"09:00", "12:00"⟩ : TimeWindow)] ∧
        strLe w.fromTime "10:15" = true ∧ strLe "10:15" w.toTime = true) ∧
    selectSlot [⟨"09:00", "12:00"⟩] [some "08:30", some "10:15"] =
      [some "08:30", some "10:15"].findSome? (fun o =>
        match o with
        | some t =>
          if [(⟨"09:00", "12:00"⟩ : TimeWindow)].any
              (fun w => strLe w.fromTime t && strLe t w.toTime) then some t else none
        | none => none) ∧
    evalDay cfgScenA dayScenA = ([.evaluated 8, .noSlot 8], .skip) ∧
    scanPanel cfgScenA [dayScenA] =
      ((evalDay cfgScenA dayScenA).1 ++ (scanPanel cfgScenA []).1,
       (scanPanel cfgScenA []).2) :=
  ⟨c1_slot_selection.1 [⟨"09:00", "12:00"⟩] "10:15",
   c1_slot_selection.2.1 [⟨"09:00", "12:00"⟩] [some "08:30", some "10:15"],
   c1_slot_selection.2.2.1 cfgScenA dayScenA (by decide) (by decide),
   c1_slot_selection.2.2.2 cfgScenA dayScenA [] (by decide)⟩

/-- C2 counterexample: with `latest = 5` and the portal offering day 10 in
the first panel and day 11 in the second (days in increasing order), day 10
exceeds the latest date, yet day 11 is still evaluated afterwards in the
same scan — the `break` at src/main.py:381 only leaves the current panel's
day loop, so the claim's "no day after d is evaluated within the same scan
(the whole scan terminates early)" is false. -/
theorem c2_counterexample :
    cfgLatest5.latest = some 5 ∧
    run cfgLatest5 pagesLatest = ([.evaluated 10, .evaluated 11], false) ∧
    5 < 10 ∧ 10 < 11 := by
  refine ⟨rfl, ?_, by decide, by decide⟩
  decide

/-- C2 amended: when a latest date is configured, a day beyond it stops the
scan of the current month panel (no later day of that panel is evaluated,
conjunct 2), but the traversal then proceeds to the next panel and further
pagination pages; still, no day later than the latest date ever appears in
an attempted booking (conjunct 1). -/
theorem c2_latest_date :
    (∀ (cfg : Config) (pages : List (List Day × List Day)) (L d : Nat) (t : String),
      cfg.latest = some L →
      Event.bookingStarted d t ∈ (run cfg pages).1 →
      d ≤ L) ∧
    (∀ (cfg : Config) (day : Day) (rest : List Day) (L : Nat),
      cfg.latest = some L →
      beforeEarliest cfg day.date = false →
      L < day.date →
      scanPanel cfg (day :: rest) = ([.evaluated day.date], false)) := by
  constructor
  · intro cfg pages L d t hL hmem
    rcases run_shape cfg pages with ⟨_, hplain⟩ | ⟨_, pre, day, t', heq, hpre, hb⟩
    · exact absurd (hplain _ hmem) (by simp [plainEvent])
    · rw [heq] at hmem
      rcases List.mem_append.mp hmem with hmem | hmem
      · exact absurd (hpre _ hmem) (by simp [plainEvent])
      · have hd : d = day.date := (bookingBlock_book_mem hmem).1
        have hlat : afterLatest cfg day.date = false := hb.2.1
        rw [afterLatest, hL] at hlat
        simp only [decide_eq_false_iff_not, not_lt] at hlat
        exact hd ▸ hlat
  · intro cfg day rest L hL hE hlt
    have hlat : afterLatest cfg day.date = true := by
      rw [afterLatest, hL]
      simpa using hlt
    have hf : dayFilter cfg day.date = some .stopPanel := by
      simp [dayFilter, hE, hlat]
    have he : evalDay cfg day = ([.evaluated day.date], .stopPanel) := by
      simp [evalDay, hf]
    simp [scanPanel, he]

/-- C2 amended witness: a booking performed under a configured latest date
respects the bound, and a panel whose first day exceeds the latest date is
cut off at that day. -/
theorem c2_latest_date_witness :
    (8 : Nat) ≤ 20 ∧
    scanPanel cfgLatest5 [⟨10, [], [], true⟩] = ([.evaluated 10], false) :=
  ⟨c2_latest_date.1 cfgBounded pagesBook 20 8 "10:00" rfl (by decide),
   c2_latest_date.2 cfgLatest5 ⟨10, [], [], true⟩ [] 5 rfl (by decide) (by decide)⟩

/-- C3: at most one booking attempt occurs per traversal invocation
(conjunct 1); once a booking is attempted the traversal never evaluates a
further day (conjunct 2); and the invocation ends with `success = True`
whenever a booking was attempted, regardless of whether the confirmation
header signalled success or failure (conjunct 3).  Re-invocation after an
unsuccessful scan is a fresh independent scan by construction: `run` is a
pure function of the configuration and the portal pages, with no state
carried between invocations. -/
theorem c3_at_most_one_booking :
    (∀ (cfg : Config) (pages : List (List Day × List Day)),
      countBookings (run cfg pages).1 ≤ 1) ∧
    (∀ (cfg : Config) (pages : List (List Day × List Day)),
      afterFirst isBook (fun e => !(isEval e)) (run cfg pages).1 = true) ∧
    (∀ (cfg : Config) (pages : List (List Day × List Day)) (d : Nat) (t : String),
      Event.bookingStarted d t ∈ (run cfg pages).1 → (run cfg pages).2 = true) := by
  refine ⟨?_, ?_, ?_⟩
  · intro cfg pages
    rcases run_shape cfg pages with ⟨_, hplain⟩ | ⟨_, pre, day, t, heq, hpre, _⟩
    · rw [countBookings_of_all_not_book (fun e he => plainEvent_not_book (hplain e he))]
      omega
    · rw [heq, countBookings_append,
        countBookings_of_all_not_book (fun e he => plainEvent_not_book (hpre e he)),
        countBookings_bookingBlock]
  · intro cfg pages
    rcases run_shape cfg pages with ⟨_, hplain⟩ | ⟨_, pre, day, t, heq, hpre, _⟩
    · exact afterFirst_of_all_neg (fun e he => plainEvent_not_book (hplain e he))
    · rw [heq,
        afterFirst_append_of_all_neg (fun e he => plainEvent_not_book (hpre e he))]
      unfold bookingBlock
      simp only [List.cons_append, afterFirst, isBook, Bool.false_eq_true, if_false,
        if_true, List.nil_append, List.append_eq, List.all_append]
      cases day.headerOk <;> simp [isEval] <;>
        exact fun x hx => verif_not_eval (captchaRun_verif hx)
  · intro cfg pages d t hmem
    rcases run_shape cfg pages with ⟨hf, hplain⟩ | ⟨ht, _⟩
    · exact absurd (hplain _ hmem) (by simp [plainEvent])
    · exact ht

/-- C3 witness: a scan with one bookable day performs exactly one booking
attempt, after which nothing further is evaluated and the run reports
success. -/
theorem c3_at_most_one_booking_witness :
    countBookings (run cfgOpen pagesBook).1 ≤ 1 ∧
    afterFirst isBook (fun e => !(isEval e)) (run cfgOpen pagesBook).1 = true ∧
    (run cfgOpen pagesBook).2 = true :=
  ⟨c3_at_most_one_booking.1 cfgOpen pagesBook,
   c3_at_most_one_booking.2.1 cfgOpen pagesBook,
   c3_at_most_one_booking.2.2 cfgOpen pagesBook 8 "10:00" (by decide)⟩

/-- C4 counterexample: with `excludedDates = [5]`, full-day windows and the
portal offering days 5 and 6 in the same panel (day 5 freely bookable but
excluded), day 5 is rejected with no booking attempted — but day 6, a
subsequent candidate day of the same scan, is never evaluated: the `break`
at src/main.py:384 leaves the panel's day loop, refuting the claim that
"traversal continues evaluating the subsequent candidate days of the same
scan". -/
theorem c4_counterexample :
    cfgExclude5.exclude.contains 5 = true ∧
    run cfgExclude5 pagesExclude = ([.evaluated 5], false) ∧
    Event.evaluated 6 ∉ (run cfgExclude5 pagesExclude).1 ∧
    countBookings (run cfgExclude5 pagesExclude).1 = 0 := by
  refine ⟨rfl, by decide, by decide, by decide⟩

/-- C4 amended: a day in the exclusion set is rejected with no booking ever
attempted for it, regardless of otherwise-matching windows (conjunct 1);
however — like the latest-date case — the rejection breaks out of the
current month panel's day loop, skipping that panel's remaining days
(conjunct 2); the traversal then continues with the next panel of the same
page (conjunct 3) and with subsequent pages. -/
theorem c4_excluded_dates :
    (∀ (cfg : Config) (pages : List (List Day × List Day)) (d : Nat) (t : String),
      Event.bookingStarted d t ∈ (run cfg pages).1 →
      cfg.exclude.contains d = false) ∧
    (∀ (cfg : Config) (day : Day) (rest : List Day),
      beforeEarliest cfg day.date = false →
      afterLatest cfg day.date = false →
      cfg.exclude.contains day.date = true →
      scanPanel cfg (day :: rest) = ([.evaluated day.date], false)) ∧
    (∀ (cfg : Config) (p1 p2 : List Day),
      (scanPanel cfg p1).2 = false →
      scanPage cfg (p1, p2) =
        ((scanPanel cfg p1).1 ++ (scanPanel cfg p2).1, (scanPanel cfg p2).2)) := by
  refine ⟨?_, ?_, ?_⟩
  · intro cfg pages d t hmem
    rcases run_shape cfg pages with ⟨_, hplain⟩ | ⟨_, pre, day, t', heq, hpre, hb⟩
    · exact absurd (hplain _ hmem) (by simp [plainEvent])
    · rw [heq] at hmem
      rcases List.mem_append.mp hmem with hmem | hmem
      · exact absurd (hpre _ hmem) (by simp [plainEvent])
      · exact (bookingBlock_book_mem hmem).1 ▸ hb.2.2.1
  · intro cfg day rest hE hL hx
    have hx' : day.date ∈ cfg.exclude := by simpa using hx
    have hf : dayFilter cfg day.date = some .stopPanel := by
      simp [dayFilter, hE, hL, hx']
    have he : evalDay cfg day = ([.evaluated day.date], .stopPanel) := by
      simp [evalDay, hf]
    simp [scanPanel, he]
  · intro cfg p1 p2 h1
    simp [scanPage, h1]

/-- C4 amended witness: an excluded day's panel is cut off at that day with
no booking, the scan continuing with the second panel of the page. -/
theorem c4_excluded_dates_witness :
    cfgBounded.exclude.contains 8 = false ∧
    scanPanel cfgExclude5 [⟨5, [some "10:00"], [], true⟩, ⟨6, [some "10:00"], [], true⟩] =
      ([.evaluated 5], false) ∧
    scanPage cfgExclude5 ([⟨5, [some "10:00"], [], true⟩], [⟨6, [some "10:00"], [], true⟩]) =
      ((scanPanel cfgExclude5 [⟨5, [some "10:00"], [], true⟩]).1 ++
        (scanPanel cfgExclude5 [⟨6, [some "10:00"], [], true⟩]).1,
       (scanPanel cfgExclude5 [⟨6, [some "10:00"], [], true⟩]).2) :=
  ⟨c4_excluded_dates.1 cfgBounded pagesBook 8 "10:00" (by decide),
   c4_excluded_dates.2.1 cfgExclude5 ⟨5, [some "10:00"], [], true⟩
     [⟨6, [some "10:00"], [], true⟩] (by decide) (by decide) (by decide),
   c4_excluded_dates.2.2 cfgExclude5 [⟨5, [some "10:00"], [], true⟩]
     [⟨6, [some "10:00"], [], true⟩] (by decide)⟩

/-- C9 counterexample: a bookable day whose single captcha round times out
(the relay returns no answer).  The trace shows that after the
`captchaTimeout` event the confirmation button is still clicked
(`confirmClicked` follows it) — further submission steps for that day ARE
performed, refuting "no further submission steps for that day are
performed"; the attempt then terminates the whole run (success flag set)
rather than merely abandoning the day. -/
theorem c9_counterexample :
    run cfgOpen pagesTimeout =
      ([.evaluated 5, .bookingStarted 5 "10:00", .captchaTimeout 5,
        .confirmClicked 5, .bookingFailed 5], true) ∧
    afterFirst isTimeoutEv (fun e => !(isConfirm e))
      (run cfgOpen pagesTimeout).1 = false := by
  refine ⟨by decide, by decide⟩

/-- C9 amended: when the verification relay returns no answer within the
timeout, verification is not retried within the same traversal — after a
`captchaTimeout` no further verification events occur in the whole trace
(conjunct 1) — and verification is re-run exactly when an answer was
submitted and the portal re-presents a challenge (conjunct 3, one answered
round consumed per re-presented challenge); however the caller does not
abandon the day's remaining submission steps: the confirmation click is
still performed for that day and the attempt ends the run (conjunct 2). -/
theorem c9_verification_timeout :
    (∀ (cfg : Config) (pages : List (List Day × List Day)),
      afterFirst isTimeoutEv (fun e => !(isVerif e)) (run cfg pages).1 = true) ∧
    (∀ (cfg : Config) (pages : List (List Day × List Day)) (d : Nat),
      Event.captchaTimeout d ∈ (run cfg pages).1 →
      Event.confirmClicked d ∈ (run cfg pages).1 ∧ (run cfg pages).2 = true) ∧
    (∀ (d : Nat) (a : String) (rest : List (Option String)),
      captchaRun d (some a :: rest) =
        (Event.captchaAnswered d a :: (captchaRun d rest).1, (captchaRun d rest).2)) := by
  refine ⟨?_, ?_, fun d a rest => rfl⟩
  · intro cfg pages
    rcases run_shape cfg pages with ⟨_, hplain⟩ | ⟨_, pre, day, t, heq, hpre, _⟩
    · exact afterFirst_of_all_neg (fun e he => plainEvent_not_timeout (hplain e he))
    · rw [heq,
        afterFirst_append_of_all_neg (fun e he => plainEvent_not_timeout (hpre e he))]
      unfold bookingBlock
      simp only [List.cons_append, afterFirst, isTimeoutEv, Bool.false_eq_true, if_false,
        List.nil_append]
      exact captchaRun_afterFirst_timeout day.date day.captcha _
        (by cases day.headerOk <;> simp [isVerif])
  · intro cfg pages d hmem
    rcases run_shape cfg pages with ⟨_, hplain⟩ | ⟨ht, pre, day, t, heq, hpre, _⟩
    · exact absurd (hplain _ hmem) (by simp [plainEvent])
    · rw [heq] at hmem
      rcases List.mem_append.mp hmem with hmem | hmem
      · exact absurd (hpre _ hmem) (by simp [plainEvent])
      · have hd : d = day.date := bookingBlock_timeout_mem hmem
        refine ⟨?_, ht⟩
        rw [heq]
        exact List.mem_append.mpr (Or.inr (hd ▸ bookingBlock_confirm_mem day t))

/-- C9 amended witness: in the timed-out scenario, no verification event
follows the timeout, the confirmation click still happens for that day, the
run terminates, and an answered round prepends exactly one
`captchaAnswered` event. -/
theorem c9_verification_timeout_witness :
    afterFirst isTimeoutEv (fun e => !(isVerif e)) (run cfgOpen pagesTimeout).1 = true ∧
    (Event.confirmClicked 5 ∈ (run cfgOpen pagesTimeout).1 ∧
      (run cfgOpen pagesTimeout).2 = true) ∧
    captchaRun 5 [some "7F3Q", none] =
      (Event.captchaAnswered 5 "7F3Q" :: (captchaRun 5 [none]).1, (captchaRun 5 [none]).2) :=
  ⟨c9_verification_timeout.1 cfgOpen pagesTimeout,
   c9_verification_timeout.2.1 cfgOpen pagesTimeout 5 (by decide),
   c9_verification_timeout.2.2 5 "7F3Q" [none]⟩

/-! ## Lemmas: schema lookup, relay polling, supervisor loop -/

theorem lookupY_map_of_not_mem :
    ∀ (ks : List String) (f : String → YVal) (key : String),
      ks.contains key = false → lookupY (ks.map (fun k => (k, f k))) key = none
  | [], _, _, _ => rfl
  | k :: ks, f, key, h => by
    simp only [List.contains_cons, Bool.or_eq_false_iff] at h
    have hk : ¬ k = key := by
      intro he
      subst he
      simp at h
    simp only [List.map_cons, lookupY, if_neg hk]
    exact lookupY_map_of_not_mem ks f key h.2

theorem pollFrom_exit_le (f : Nat → Option String) :
    ∀ (remaining k : Nat), (pollFrom f k remaining).2 ≤ k + remaining
  | 0, k => by cases h : f k <;> simp [pollFrom, h]
  | r + 1, k => by
    cases h : f k with
    | some a => simp [pollFrom, h]
    | none =>
      have hrec := pollFrom_exit_le f r (k + 1)
      simp only [pollFrom, h]
      omega

theorem pollFrom_answer (f : Nat → Option String) :
    ∀ (remaining k : Nat), (pollFrom f k remaining).1 = f ((pollFrom f k remaining).2)
  | 0, k => by cases h : f k <;> simp [pollFrom, h]
  | r + 1, k => by
    cases h : f k with
    | some a => simp [pollFrom, h]
    | none =>
      simp only [pollFrom, h]
      exact pollFrom_answer f r (k + 1)

theorem pollFrom_timeout (f : Nat → Option String) :
    ∀ (remaining k : Nat), (∀ j, k ≤ j → j ≤ k + remaining → f j = none) →
      pollFrom f k remaining = (none, k + remaining)
  | 0, k, h => by simp [pollFrom, h k le_rfl (by omega)]
  | r + 1, k, h => by
    have hk : f k = none := h k le_rfl (by omega)
    simp only [pollFrom, hk]
    have hrec := pollFrom_timeout f r (k + 1) (fun j hj1 hj2 => h j (by omega) (by omega))
    rw [hrec]
    congr 1
    omega

theorem pollFrom_finds (f : Nat → Option String) :
    ∀ (remaining k k0 : Nat), k ≤ k0 → k0 ≤ k + remaining → (f k0).isSome = true →
      ((pollFrom f k remaining).1).isSome = true
  | 0, k, k0, h1, h2, h3 => by
    have hk : k = k0 := by omega
    subst hk
    cases h : f k with
    | some a => simp [pollFrom, h]
    | none => rw [h] at h3; simp at h3
  | r + 1, k, k0, h1, h2, h3 => by
    cases h : f k with
    | some a => simp [pollFrom, h]
    | none =>
      simp only [pollFrom, h]
      have hk : ¬ k = k0 := by
        intro he
        subst he
        rw [h] at h3
        simp at h3
      exact pollFrom_finds f r (k + 1) k0 (by omega) (by omega) h3

theorem superLoop_spec :
    ∀ (fuel : Nat) (r : Nat → Bool) (m tries : Nat),
      1 ≤ m → tries ≤ m → m + 1 - tries ≤ fuel →
      ∃ n s, superLoop r m tries fuel = some (n, s) ∧ tries < n ∧ n ≤ m + 1 ∧
        (s = true → r (n - 1) = true ∧ ∀ i, tries ≤ i → i < n - 1 → r i = false) ∧
        (s = false → ∀ i, tries ≤ i → i < n → r i = false)
  | 0, _, m, tries, _, h2, h3 => absurd h3 (by omega)
  | fuel + 1, r, m, tries, h1, h2, h3 => by
    by_cases hr : r tries = true
    · refine ⟨tries + 1, true, by simp [superLoop, hr], by omega, by omega, ?_, ?_⟩
      · exact fun _ => ⟨by simpa using hr, fun i hi1 hi2 => absurd hi2 (by omega)⟩
      · intro hfalse
        simp at hfalse
    · have hrf : r tries = false := by simpa using hr
      by_cases hlt : tries < m
      · have hcond : (m == 0 || decide (tries < m)) = true := by simp [hlt]
        have heq : superLoop r m tries (fuel + 1) = superLoop r m (tries + 1) fuel := by
          simp [superLoop, hrf, hcond]
        obtain ⟨n, s, hs, hn1, hn2, ht, hf⟩ :=
          superLoop_spec fuel r m (tries + 1) h1 (by omega) (by omega)
        refine ⟨n, s, heq.trans hs, by omega, hn2, ?_, ?_⟩
        · intro hst
          obtain ⟨ha, hb⟩ := ht hst
          refine ⟨ha, fun i hi1 hi2 => ?_⟩
          rcases Nat.eq_or_lt_of_le hi1 with rfl | hi1'
          · exact hrf
          · exact hb i hi1' hi2
        · intro hsf
          have hbf := hf hsf
          intro i hi1 hi2
          rcases Nat.eq_or_lt_of_le hi1 with rfl | hi1'
          · exact hrf
          · exact hbf i hi1' hi2
      · have hm0 : (m == 0) = false := by
          simp only [beq_eq_false_iff_ne, ne_eq]
          omega
        have hdec : decide (tries < m) = false := by simpa using hlt
        have hcond : (m == 0 || decide (tries < m)) = false := by simp [hm0, hdec]
        refine ⟨tries + 1, false, by simp [superLoop, hrf, hcond], by omega, by omega, ?_, ?_⟩
        · intro hst
          simp at hst
        · intro _ i hi1 hi2
          have hi : i = tries := by omega
          subst hi
          exact hrf

/-- C5: the weekday-defaulting rule of file-based ingestion is unreachable —
for every document accepted (and normalised) by the `weekdays` section of
`config_schema`, the ingestion loop of `Configuration.parse_config`
(src/main.py:267) raises `KeyError`: the loop reads
`config["weekdays"]["available"]`, but the schema rejects any document
containing an `available` key as an unknown field and normalisation only
produces the keys monday..saturday, so no validated configuration ever gets
the claimed full-day default (or the empty-list behaviour) recorded. -/
theorem c5_weekday_default_keyerror :
    ∀ (doc out : YVal), validateWeekdays doc = some out →
      parse_config_weekdays out = none := by
  intro doc out h
  cases doc with
  | s v => simp [validateWeekdays] at h
  | list l => simp [validateWeekdays] at h
  | dict entries =>
    simp only [validateWeekdays] at h
    by_cases hc : entries.all (fun kv => weekdayKeys.contains kv.1 && windowListVal kv.2)
    · rw [if_pos hc] at h
      have hout := Option.some.inj h
      subst hout
      have hl : lookupY (weekdayKeys.map
          (fun k => (k, (lookupY entries k).getD (.list [])))) "available" = none :=
        lookupY_map_of_not_mem weekdayKeys _ "available" (by decide)
      simp [parse_config_weekdays, hl]
    · rw [if_neg hc] at h
      exact absurd h (by simp)

/-- C5 witness: a schema-valid weekdays document (monday with one window)
validates and normalises successfully, and the ingestion loop then fails
with `KeyError` on the normalised document. -/
theorem c5_weekday_default_keyerror_witness :
    validateWeekdays weekdaysDoc = some weekdaysNormalized ∧
    parse_config_weekdays weekdaysNormalized = none :=
  ⟨rfl, c5_weekday_default_keyerror weekdaysDoc weekdaysNormalized rfl⟩

/-- C6 counterexample: the window `{from: "12:00", to: "09:00"}` is accepted
by the schema (both fields match `TIME_FORMAT_REGEX`) yet has from > to —
the schema does not enforce the `from ≤ to` invariant. -/
theorem c6_counterexample :
    windowSchemaOk ⟨"12:00", "09:00"⟩ = true ∧ strLe "12:00" "09:00" = false := by
  decide

/-- C6 amended: the schema enforces only the per-field HH:MM format regex on
`from` and `to` (conjunct 1); `from ≤ to` is not enforced, so a window with
from > to can appear in an accepted configuration — such a window is merely
inert, since any time it matched would force from ≤ to by transitivity
(conjunct 2). -/
theorem c6_window_schema :
    (∀ w : TimeWindow, windowSchemaOk w = true →
      timeFormatOk w.fromTime = true ∧ timeFormatOk w.toTime = true) ∧
    (∀ (w : TimeWindow) (t : String),
      strLe w.fromTime t = true → strLe t w.toTime = true →
      strLe w.fromTime w.toTime = true) := by
  constructor
  · intro w h
    simpa [windowSchemaOk, Bool.and_eq_true] using h
  · intro w t h1 h2
    exact strLe_trans h1 h2

/-- C6 amended witness: both fields of the inverted window are
format-valid, and a window that matches 10:15 has from ≤ to. -/
theorem c6_window_schema_witness :
    (timeFormatOk "12:00" = true ∧ timeFormatOk "09:00" = true) ∧
    strLe "09:00" "12:00" = true :=
  ⟨c6_window_schema.1 ⟨"12:00", "09:00"⟩ (by decide),
   c6_window_schema.2 ⟨"09:00", "12:00"⟩ "10:15" (by decide) (by decide)⟩

/-- C7: the verification relay's wait is bounded: the loop exits within
`timeoutTicks` half-second ticks, i.e. within the 4-minute-30-second
timeout plus at most one sleep granule, so the caller is never blocked
indefinitely (conjunct 1); the returned value is exactly the state of the
operator's reply at the exit tick (conjunct 2); when no reply arrives
within the timeout the relay returns the empty result at the timeout tick
(conjunct 3); and when a reply does arrive within the timeout, a reply is
returned (conjunct 4). -/
theorem c7_relay_timeout :
    (∀ f : Nat → Option String, (telegram_send_photo true f).2 ≤ timeoutTicks) ∧
    (∀ f : Nat → Option String,
      (telegram_send_photo true f).1 = f ((telegram_send_photo true f).2)) ∧
    (∀ f : Nat → Option String, (∀ j, j ≤ timeoutTicks → f j = none) →
      telegram_send_photo true f = (none, timeoutTicks)) ∧
    (∀ (f : Nat → Option String) (k0 : Nat), k0 ≤ timeoutTicks → (f k0).isSome = true →
      ((telegram_send_photo true f).1).isSome = true) := by
  have htp : ∀ f, telegram_send_photo true f = pollFrom f 0 timeoutTicks := fun _ => rfl
  refine ⟨?_, ?_, ?_, ?_⟩
  · intro f
    rw [htp]
    simpa using pollFrom_exit_le f timeoutTicks 0
  · intro f
    rw [htp]
    exact pollFrom_answer f timeoutTicks 0
  · intro f h
    rw [htp]
    have hrec := pollFrom_timeout f timeoutTicks 0
      (fun j _ hj2 => h j (by simpa using hj2))
    simpa using hrec
  · intro f k0 h1 h2
    rw [htp]
    exact pollFrom_finds f timeoutTicks 0 k0 (Nat.zero_le _) (by simpa using h1) h2

/-- C7 witness: with no reply the relay returns the empty result exactly at
the timeout tick; with a reply arriving at tick 12 (six seconds in) a reply
is returned and it equals the reply state at the exit tick. -/
theorem c7_relay_timeout_witness :
    (telegram_send_photo true (fun _ => none)).2 ≤ timeoutTicks ∧
    (telegram_send_photo true answeredAt12).1 =
      answeredAt12 ((telegram_send_photo true answeredAt12).2) ∧
    telegram_send_photo true (fun _ => none) = (none, timeoutTicks) ∧
    ((telegram_send_photo true answeredAt12).1).isSome = true :=
  ⟨c7_relay_timeout.1 (fun _ => none),
   c7_relay_timeout.2.1 answeredAt12,
   c7_relay_timeout.2.2.1 (fun _ => none) (fun _ _ => rfl),
   c7_relay_timeout.2.2.2 answeredAt12 12 (by decide) (by decide)⟩

/-- C8 counterexample: with `--tries 1` and every attempt failing, the
periodic supervisor invokes `run` twice, not once: the loop condition
`tries < args.tries` is checked before `tries` is incremented, so the
configured maximum bounds the retries, not the attempts — "at most the
configured maximum number of attempts" is false. -/
theorem c8_counterexample :
    supervisor true 1 (fun _ => false) 5 = some (2, false) ∧ 1 < 2 := by
  decide

/-- C8 amended: in periodic mode with a maximum of m ≥ 1 tries, the
supervisor performs at most m + 1 invocations of `run` (the initial attempt
plus up to m retries), stopping at the first successful invocation
(conjunct 1); an immediately successful run stops after exactly one
invocation (conjunct 2); non-periodic mode performs exactly one invocation
and stops regardless of its outcome (conjunct 3).  Between failed attempts
the code sleeps `minutes * 60 + seconds` seconds and logs the attempt
number, and `tries = 0` still means unlimited. -/
theorem c8_supervisor :
    (∀ (r : Nat → Bool) (m : Nat), 1 ≤ m →
      ∃ n s, superLoop r m 0 (m + 1) = some (n, s) ∧ n ≤ m + 1 ∧
        (s = true → r (n - 1) = true ∧ ∀ i, i < n - 1 → r i = false) ∧
        (s = false → ∀ i, i < n → r i = false)) ∧
    (∀ (r : Nat → Bool) (m fuel : Nat), r 0 = true →
      supervisor true m r (fuel + 1) = some (1, true)) ∧
    (∀ (r : Nat → Bool) (m fuel : Nat), supervisor false m r fuel = some (1, r 0)) := by
  refine ⟨?_, ?_, ?_⟩
  · intro r m h1
    obtain ⟨n, s, hs, _, hn2, ht, hf⟩ :=
      superLoop_spec (m + 1) r m 0 h1 (by omega) (by omega)
    exact ⟨n, s, hs, hn2,
      fun hst => ⟨(ht hst).1, fun i hi => (ht hst).2 i (by omega) hi⟩,
      fun hsf i hi => hf hsf i (by omega) hi⟩
  · intro r m fuel h
    simp [supervisor, superLoop, h]
  · intro r m fuel
    simp [supervisor]

/-- C8 amended witness: a run that first succeeds on its second invocation
under a cap of 3 retries stays within 4 invocations; immediate success and
the non-periodic single attempt behave as stated. -/
theorem c8_supervisor_witness :
    (∃ n s, superLoop (fun i => i == 1) 3 0 (3 + 1) = some (n, s) ∧ n ≤ 3 + 1 ∧
      (s = true → (fun i => i == 1) (n - 1) = true ∧
        ∀ i, i < n - 1 → (fun i => i == 1) i = false) ∧
      (s = false → ∀ i, i < n → (fun i => i == 1) i = false)) ∧
    supervisor true 2 (fun _ => true) 1 = some (1, true) ∧
    supervisor false 2 (fun _ => false) 0 = some (1, false) :=
  ⟨c8_supervisor.1 (fun i => i == 1) 3 (by decide),
   c8_supervisor.2.1 (fun _ => true) 2 0 rfl,
   c8_supervisor.2.2 (fun _ => false) 2 0⟩

/-- C10: for every Configuration built from CLI arguments alone (no config
file) or from a config file whose dates section has no `latest` entry, the
latest-date bound equals the value passed as the earliest-date argument
(conjuncts 1 and 2) — src/main.py:81 assigns `args.earliest_date` to
`self.latest_date`; the parsed `--latest-date` argument is never read, so
two argument vectors differing only in it yield identical date bounds
(conjunct 3) and identical traversal behaviour on every portal calendar
(conjunct 4). -/
theorem c10_latest_date_unused :
    (∀ a : ArgsModel, (configDates a none).2.1 = a.earliest_date) ∧
    (∀ (a : ArgsModel) (ds : DatesSection), ds.latest = none →
      (configDates a (some ds)).2.1 = a.earliest_date) ∧
    (∀ (a a' : ArgsModel) (file : Option DatesSection),
      a.earliest_date = a'.earliest_date →
      configDates a file = configDates a' file) ∧
    (∀ (a a' : ArgsModel) (file : Option DatesSection) (windows : Nat → List TimeWindow)
      (db : Bool) (pages : List (List Day × List Day)),
      a.earliest_date = a'.earliest_date →
      run ⟨(configDates a file).1, (configDates a file).2.1,
           (configDates a file).2.2, windows, db⟩ pages =
      run ⟨(configDates a' file).1, (configDates a' file).2.1,
           (configDates a' file).2.2, windows, db⟩ pages) := by
  refine ⟨fun a => rfl, ?_, ?_, ?_⟩
  · intro a ds h
    simp [configDates, h]
  · intro a a' file h
    cases file <;> simp [configDates, h]
  · intro a a' file windows db pages h
    have hc : configDates a file = configDates a' file := by
      cases file <;> simp [configDates, h]
    rw [hc]

/-- C10 witness: with `--earliest-date 7` and `--latest-date 99`, the
configured latest date is 7; dropping or changing `--latest-date` changes
nothing, including the traversal itself. -/
theorem c10_latest_date_unused_witness :
    (configDates ⟨some 7, some 99⟩ none).2.1 = some 7 ∧
    (configDates ⟨some 7, some 99⟩ (some ⟨some 2, none, [3]⟩)).2.1 = some 7 ∧
    configDates ⟨some 7, some 99⟩ none = configDates ⟨some 7, none⟩ none ∧
    run ⟨(configDates ⟨some 7, some 99⟩ none).1, (configDates ⟨some 7, some 99⟩ none).2.1,
         (configDates ⟨some 7, some 99⟩ none).2.2, fun _ => [fullDayWindow], false⟩ pagesBook =
    run ⟨(configDates ⟨some 7, none⟩ none).1, (configDates ⟨some 7, none⟩ none).2.1,
         (configDates ⟨some 7, none⟩ none).2.2, fun _ => [fullDayWindow], false⟩ pagesBook :=
  ⟨c10_latest_date_unused.1 ⟨some 7, some 99⟩,
   c10_latest_date_unused.2.1 ⟨some 7, some 99⟩ ⟨some 2, none, [3]⟩ rfl,
   c10_latest_date_unused.2.2.1 ⟨some 7, some 99⟩ ⟨some 7, none⟩ none rfl,
   c10_latest_date_unused.2.2.2 ⟨some 7, some 99⟩ ⟨some 7, none⟩ none
     (fun _ => [fullDayWindow]) false pagesBook rfl⟩

end Buergerbot
